import Mathlib

/-
  Verification of the billing_software repository (IEEE_BILLING.py and
  ROBOCEK_BILLING.py) against its natural-language specification.

  The embedding models Python Decimal values as exact rationals together
  with the special values Infinity and NaN.  Decimal context precision
  (28 significant digits) is not modelled: add, subtract, multiply and
  divide are exact, which agrees with Python for all realistic monetary
  magnitudes.  Strings from text-entry widgets are modelled by the outcome
  of the Python expression Decimal(str(v)): either a PyDecimal value or a
  construction-time InvalidOperation.
-/

namespace Billing

/-- Rounding of a rational to an integer with ties going away from zero,
the meaning of ROUND_HALF_UP in the Python decimal module. -/
def roundHalfUpZ (x : ℚ) : ℤ :=
  if 0 ≤ x then ⌊x + 1 / 2⌋ else -⌊-x + 1 / 2⌋

/-- Models d.quantize(Decimal("0.01"), rounding=ROUND_HALF_UP) on a finite
decimal value: round half-up to exactly 2 fractional digits. -/
def quantize2 (x : ℚ) : ℚ :=
  (roundHalfUpZ (x * 100) : ℚ) / 100

/-- The Money invariant of the spec: the value is already normalized to
2 fractional digits, so re-rounding it changes nothing. -/
def IsMoney (x : ℚ) : Prop := quantize2 x = x

/-- A Python Decimal value: finite (exact rational), an infinity, or NaN. -/
inductive PyDecimal where
  | fin (q : ℚ)
  | posInf
  | negInf
  | nan
deriving DecidableEq

/-- Outcome of the Python expression Decimal(str(v)) on a raw input:
either a successfully constructed Decimal, or an InvalidOperation or
ValueError raised at construction (for example on the text "abc"). -/
inductive DInput where
  | parsed (d : PyDecimal)
  | parseError
deriving DecidableEq

/-- Result of a decimal operation that can signal InvalidOperation. -/
inductive DResult where
  | val (d : PyDecimal)
  | invalidOperation
deriving DecidableEq

/-- Models d.quantize(Decimal("0.01"), ROUND_HALF_UP) on any Decimal:
finite values are rounded, quantizing an infinity raises InvalidOperation,
and a quiet NaN propagates without raising. -/
def pyQuantize2 : PyDecimal → DResult
  | .fin q => .val (.fin (quantize2 q))
  | .posInf => .invalidOperation
  | .negInf => .invalidOperation
  | .nan => .val .nan

/-- Models the Python comparison d <= 0 on a Decimal: ordering a NaN
raises InvalidOperation (encoded as none). -/
def pyLeZero : PyDecimal → Option Bool
  | .fin q => some (decide (q ≤ 0))
  | .posInf => some false
  | .negInf => some true
  | .nan => none

/-- Models the Python comparison d < 0 on a Decimal. -/
def pyLtZero : PyDecimal → Option Bool
  | .fin q => some (decide (q < 0))
  | .posInf => some false
  | .negInf => some true
  | .nan => none

/-- One entry of self.items: a dict with keys name, qty, price, total. -/
structure Item where
  name : String
  qty : ℚ
  price : ℚ
  total : ℚ
deriving DecidableEq

/-- The five derived monetary quantities computed by recalc totals. -/
structure Totals where
  subtotal : ℚ
  discountAmt : ℚ
  taxable : ℚ
  taxAmt : ℚ
  grandTotal : ℚ
deriving DecidableEq

/-- A wall-clock instant at second granularity, the input of
datetime.datetime.now().strftime("%Y%m%d%H%M%S"). -/
structure Timestamp where
  year : Nat
  month : Nat
  day : Nat
  hour : Nat
  minute : Nat
  second : Nat
deriving DecidableEq

/-- Decimal digit characters of a natural number, accumulator style with
fuel for structural recursion; fuel n + 1 is always sufficient. -/
def natDigitsAux : Nat → Nat → List Char → List Char
  | 0, _, acc => acc
  | fuel + 1, n, acc =>
    if n < 10 then Char.ofNat (48 + n % 10) :: acc
    else natDigitsAux fuel (n / 10) (Char.ofNat (48 + n % 10) :: acc)

/-- Decimal digit characters of a natural number, most significant first. -/
def natDigits (n : Nat) : List Char := natDigitsAux (n + 1) n []

/-- Models the Python expression str(n) for a nonnegative integer n. -/
def natToString (n : Nat) : String := String.mk (natDigits n)

/-- Models the Python expression int(s) on a string of decimal digits. -/
def strToNat (s : String) : Nat :=
  s.data.foldl (fun n c => n * 10 + (c.toNat - 48)) 0

/-- Left-pad a digit list with zeros to the given width. -/
def padLeft (w : Nat) (l : List Char) : List Char :=
  List.replicate (w - l.length) '0' ++ l

/-- Character content of strftime("%Y%m%d%H%M%S"). -/
def timestampChars (t : Timestamp) : List Char :=
  padLeft 4 (natDigits t.year) ++ padLeft 2 (natDigits t.month) ++
  padLeft 2 (natDigits t.day) ++ padLeft 2 (natDigits t.hour) ++
  padLeft 2 (natDigits t.minute) ++ padLeft 2 (natDigits t.second)

/-- Models datetime.datetime.now().strftime("%Y%m%d%H%M%S"). -/
def strftimeYmdHMS (t : Timestamp) : String := String.mk (timestampChars t)

/-- Models the Python method str.strip(): remove leading and trailing
whitespace characters. -/
def pyStrip (s : String) : String :=
  String.mk
    (((s.data.dropWhile Char.isWhitespace).reverse.dropWhile
      Char.isWhitespace).reverse)

namespace IEEE

/-- Translation of D from IEEE_BILLING.py: Decimal(str(v)) with
InvalidOperation and ValueError at construction replaced by Decimal("0"),
then quantize to 2 digits half-up.  The quantize call is outside the
try block, so quantizing an infinity raises to the caller of D. -/
def D : DInput → DResult
  | .parseError => pyQuantize2 (.fin 0)
  | .parsed d => pyQuantize2 d

/-- The percentage actually used by recalc totals: D of the entry text,
with any exception from D caught and replaced by Decimal("0"). -/
def effPct (v : DInput) : PyDecimal :=
  match D v with
  | .val d => d
  | .invalidOperation => .fin 0

/-- Translation of the subtotal line of recalc totals: the sum of the
stored item totals, Decimal("0.00") for an empty item list. -/
def subtotal (items : List Item) : ℚ :=
  items.foldl (fun s it => s + it.total) 0

/-- Translation of recalc totals from IEEE_BILLING.py for finite
percentage values: discount on the subtotal, then tax on the quantized
post-discount base, each rounded half-up to 2 digits. -/
def recalcTotals (items : List Item) (discount_pct tax_pct : ℚ) : Totals :=
  let subtotal := subtotal items
  let discount_amt := quantize2 (subtotal * discount_pct / 100)
  let taxable := quantize2 (subtotal - discount_amt)
  let tax_amt := quantize2 (taxable * tax_pct / 100)
  let grand := quantize2 (taxable + tax_amt)
  ⟨subtotal, discount_amt, taxable, tax_amt, grand⟩

/-- Observable outcome of add item: a warning dialog with a message, an
uncaught exception (ordering a NaN), or a successful append. -/
inductive AddOutcome where
  | validationFailure (msg : String)
  | uncaughtError
  | added (items : List Item)
deriving DecidableEq

/-- Translation of add item from IEEE_BILLING.py.  The name is stripped;
D of quantity and price is wrapped in try/except showing the numeric
warning; the comparisons qty <= 0 and price < 0 raise out of the handler
when the value is NaN; on success the new item is appended at the end. -/
def addItem (items : List Item) (nameRaw : String) (qtyIn priceIn : DInput) :
    AddOutcome :=
  let name := pyStrip nameRaw
  if name = "" then .validationFailure "Item name cannot be empty."
  else
    match D qtyIn, D priceIn with
    | .val qd, .val pd =>
      (match pyLeZero qd with
       | none => .uncaughtError
       | some true => .validationFailure "Quantity must be greater than 0."
       | some false =>
         match pyLtZero pd with
         | none => .uncaughtError
         | some true => .validationFailure "Price cannot be negative."
         | some false =>
           match qd, pd with
           | .fin q, .fin p =>
             .added (items ++ [⟨name, q, p, quantize2 (q * p)⟩])
           | _, _ => .uncaughtError)
    | _, _ => .validationFailure "Quantity and price must be numeric."

/-- The state of self.items after an add item call: it is reassigned only
on the success path, every other outcome leaves it untouched. -/
def itemsAfterAdd (items : List Item) (nameRaw : String)
    (qtyIn priceIn : DInput) : List Item :=
  match addItem items nameRaw qtyIn priceIn with
  | .added l => l
  | _ => items

/-- What gen invoice no observes about the master database file: absent,
present but raising on open or read, or readable with the Invoice No
field of the last data row (none when there is no data row). -/
inductive StoreState where
  | absent
  | unreadable
  | readable (lastInvoice : Option String)
deriving DecidableEq

/-- Translation of gen invoice no from IEEE_BILLING.py.  A non-empty
all-digit last identifier is incremented; a non-empty non-numeric one
falls back to the current timestamp; every other case returns "1". -/
def genInvoiceNo (store : StoreState) (now : Timestamp) : String :=
  match store with
  | .absent => "1"
  | .unreadable => "1"
  | .readable none => "1"
  | .readable (some last) =>
    if last = "" then "1"
    else if last.data.all Char.isDigit then natToString (strToNat last + 1)
    else strftimeYmdHMS now

/-- The fixed 13-column header row written when the master database file
is created. -/
def headerRow : List String :=
  ["Invoice No", "Date", "Recipient", "Phone Number", "Items Count",
   "Subtotal", "Discount %", "Discount Amount", "Tax %", "Tax Amount",
   "Grand Total", "Chairperson", "Chair Position"]

/-- One appended master-database row, field values as the formatted
strings taken from the interface variables at save time. -/
structure LedgerRow where
  invoiceNo : String
  date : String
  recipient : String
  phone : String
  itemsCount : String
  subtotal : String
  discountPct : String
  discountAmt : String
  taxPct : String
  taxAmt : String
  grandTotal : String
  chairName : String
  chairPosition : String
deriving DecidableEq

/-- The CSV row written for a ledger record, in header-column order. -/
def rowOf (r : LedgerRow) : List String :=
  [r.invoiceNo, r.date, r.recipient, r.phone, r.itemsCount, r.subtotal,
   r.discountPct, r.discountAmt, r.taxPct, r.taxAmt, r.grandTotal,
   r.chairName, r.chairPosition]

/-- Translation of save to master db at the row level: the file is a list
of rows (none when absent); a fresh file gets the header row first, an
existing file is appended to, prior rows untouched. -/
def saveToMasterDb (file : Option (List (List String))) (r : LedgerRow) :
    List (List String) :=
  match file with
  | none => [headerRow, rowOf r]
  | some rows => rows ++ [rowOf r]

/-- Appending a sequence of finalized invoices starting from an absent
master database file. -/
def appendAll (rs : List LedgerRow) : Option (List (List String)) :=
  rs.foldl (fun f r => some (saveToMasterDb f r)) none

/-- Models csv.DictReader row lookup row.get(key, ""): the field at the
position the header assigns to the key, empty text when missing. -/
def dictGet (header row : List String) (key : String) : String :=
  match header.indexOf? key with
  | some i => (row.get? i).getD ""
  | none => ""

/-- The nine fields refresh history reads back from one data row. -/
structure HistoryRecord where
  invoiceNo : String
  date : String
  recipient : String
  phone : String
  itemsCount : String
  subtotal : String
  discountAmt : String
  taxAmt : String
  grandTotal : String
deriving DecidableEq

/-- Translation of the per-row read in refresh history: DictReader lookup
of the nine displayed columns. -/
def readHistoryRow (header row : List String) : HistoryRecord :=
  ⟨dictGet header row "Invoice No", dictGet header row "Date",
   dictGet header row "Recipient", dictGet header row "Phone Number",
   dictGet header row "Items Count", dictGet header row "Subtotal",
   dictGet header row "Discount Amount", dictGet header row "Tax Amount",
   dictGet header row "Grand Total"⟩

/-- Translation of refresh history: nothing when the file is absent,
otherwise every data row after the header in file order. -/
def refreshHistory : Option (List (List String)) → List HistoryRecord
  | none => []
  | some [] => []
  | some (header :: data) => data.map (readHistoryRow header)

/-- The nine-column projection of an appended row, for stating the
round-trip property. -/
def historyOf (r : LedgerRow) : HistoryRecord :=
  ⟨r.invoiceNo, r.date, r.recipient, r.phone, r.itemsCount, r.subtotal,
   r.discountAmt, r.taxAmt, r.grandTotal⟩

end IEEE

namespace ROBOCEK

/-- Translation of D from ROBOCEK_BILLING.py, textually identical to the
IEEE one. -/
def D : DInput → DResult
  | .parseError => pyQuantize2 (.fin 0)
  | .parsed d => pyQuantize2 d

/-- The percentage actually used by recalc totals in ROBOCEK_BILLING.py. -/
def effPct (v : DInput) : PyDecimal :=
  match D v with
  | .val d => d
  | .invalidOperation => .fin 0

/-- Subtotal line of recalc totals in ROBOCEK_BILLING.py. -/
def subtotal (items : List Item) : ℚ :=
  items.foldl (fun s it => s + it.total) 0

/-- Translation of recalc totals from ROBOCEK_BILLING.py. -/
def recalcTotals (items : List Item) (discount_pct tax_pct : ℚ) : Totals :=
  let subtotal := subtotal items
  let discount_amt := quantize2 (subtotal * discount_pct / 100)
  let taxable := quantize2 (subtotal - discount_amt)
  let tax_amt := quantize2 (taxable * tax_pct / 100)
  let grand := quantize2 (taxable + tax_amt)
  ⟨subtotal, discount_amt, taxable, tax_amt, grand⟩

end ROBOCEK

end Billing
namespace Billing

lemma roundHalfUpZ_intCast (n : ℤ) : roundHalfUpZ (n : ℚ) = n := by
  unfold roundHalfUpZ
  split
  · rw [Int.floor_eq_iff]
    constructor <;> norm_num
  · have h : ⌊-(n : ℚ) + 1 / 2⌋ = -n := by
      rw [Int.floor_eq_iff]
      push_cast
      constructor <;> linarith
    rw [h, neg_neg]

lemma quantize2_idem (x : ℚ) : quantize2 (quantize2 x) = quantize2 x := by
  unfold quantize2
  have h : ((roundHalfUpZ (x * 100) : ℚ) / 100) * 100 = (roundHalfUpZ (x * 100) : ℚ) := by
    field_simp
  rw [h, roundHalfUpZ_intCast]

lemma quantize2_zero : quantize2 0 = 0 := by
  unfold quantize2 roundHalfUpZ
  norm_num

lemma charOfDigit_isDigit (k : Nat) (hk : k < 10) :
    (Char.ofNat (48 + k)).isDigit = true := by
  interval_cases k <;> decide

lemma natDigitsAux_all (fuel : Nat) : ∀ (n : Nat) (acc : List Char),
    acc.all Char.isDigit = true → (natDigitsAux fuel n acc).all Char.isDigit = true := by
  induction fuel with
  | zero => intro n acc h; exact h
  | succ f ih =>
    intro n acc h
    have hc : (Char.ofNat (48 + n % 10)).isDigit = true :=
      charOfDigit_isDigit _ (Nat.mod_lt _ (by norm_num))
    simp only [natDigitsAux]
    split
    · simp [List.all_cons, hc, h]
    · exact ih _ _ (by simp [List.all_cons, hc, h])

lemma natDigitsAux_length (fuel : Nat) : ∀ (n : Nat) (acc : List Char),
    acc.length ≤ (natDigitsAux fuel n acc).length := by
  induction fuel with
  | zero => intro n acc; simp [natDigitsAux]
  | succ f ih =>
    intro n acc
    simp only [natDigitsAux]
    split
    · simp
    · exact le_trans (Nat.le_succ _) (ih (n / 10) (Char.ofNat (48 + n % 10) :: acc))

lemma natDigits_ne_nil (n : Nat) : natDigits n ≠ [] := by
  unfold natDigits
  simp only [natDigitsAux]
  split
  · simp
  · intro h
    have h2 := natDigitsAux_length n (n / 10) (Char.ofNat (48 + n % 10) :: [])
    rw [h] at h2
    simp at h2

lemma natDigits_all (n : Nat) : (natDigits n).all Char.isDigit = true :=
  natDigitsAux_all _ _ _ rfl

lemma natToString_ne_empty (n : Nat) : natToString n ≠ "" := by
  intro h
  exact natDigits_ne_nil n (congrArg String.data h)

lemma natToString_all_digits (n : Nat) :
    (natToString n).data.all Char.isDigit = true :=
  natDigits_all n

lemma replicate_zero_all (m : Nat) :
    (List.replicate m '0').all Char.isDigit = true := by
  induction m with
  | zero => rfl
  | succ k ih => simp [List.replicate_succ, List.all_cons, ih]

lemma padLeft_all (w : Nat) (l : List Char) (h : l.all Char.isDigit = true) :
    (padLeft w l).all Char.isDigit = true := by
  unfold padLeft
  simp [List.all_append, replicate_zero_all, h]

lemma timestampChars_all (t : Timestamp) :
    (timestampChars t).all Char.isDigit = true := by
  unfold timestampChars
  simp [List.all_append, padLeft_all _ _ (natDigits_all _)]

lemma timestampChars_ne_nil (t : Timestamp) : timestampChars t ≠ [] := by
  unfold timestampChars padLeft
  intro h
  rw [List.append_eq_nil, List.append_eq_nil, List.append_eq_nil,
    List.append_eq_nil, List.append_eq_nil, List.append_eq_nil] at h
  exact natDigits_ne_nil t.year h.1.1.1.1.1.2

lemma strftime_ne_empty (t : Timestamp) : strftimeYmdHMS t ≠ "" := by
  intro h
  exact timestampChars_ne_nil t (congrArg String.data h)

lemma strftime_all_digits (t : Timestamp) :
    (strftimeYmdHMS t).data.all Char.isDigit = true :=
  timestampChars_all t

lemma gen_digit_case (s : String) (now : Timestamp) (h1 : s ≠ "")
    (h2 : s.data.all Char.isDigit = true) :
    IEEE.genInvoiceNo (.readable (some s)) now = natToString (strToNat s + 1) := by
  simp [IEEE.genInvoiceNo, h1, h2]

lemma genInvoiceNo_ne_empty (store : IEEE.StoreState) (now : Timestamp) :
    IEEE.genInvoiceNo store now ≠ "" := by
  cases store with
  | absent => exact (by decide : ("1" : String) ≠ "")
  | unreadable => exact (by decide : ("1" : String) ≠ "")
  | readable last =>
    cases last with
    | none => exact (by decide : ("1" : String) ≠ "")
    | some s =>
      by_cases h1 : s = ""
      · simp [IEEE.genInvoiceNo, h1]
      · by_cases h2 : s.data.all Char.isDigit = true
        · rw [gen_digit_case s now h1 h2]
          exact natToString_ne_empty _
        · simp only [IEEE.genInvoiceNo, if_neg h1]
          rw [if_neg (by simp [h2])]
          exact strftime_ne_empty now

lemma genInvoiceNo_all_digits (store : IEEE.StoreState) (now : Timestamp) :
    (IEEE.genInvoiceNo store now).data.all Char.isDigit = true := by
  cases store with
  | absent => exact (by decide : ("1" : String).data.all Char.isDigit = true)
  | unreadable => exact (by decide : ("1" : String).data.all Char.isDigit = true)
  | readable last =>
    cases last with
    | none => exact (by decide : ("1" : String).data.all Char.isDigit = true)
    | some s =>
      by_cases h1 : s = ""
      · simp [IEEE.genInvoiceNo, h1]
      · by_cases h2 : s.data.all Char.isDigit = true
        · rw [gen_digit_case s now h1 h2]
          exact natToString_all_digits _
        · simp only [IEEE.genInvoiceNo, if_neg h1]
          rw [if_neg (by simp [h2])]
          exact strftime_all_digits now

end Billing
namespace Billing

lemma D_val_fin_money (v : DInput) (x : ℚ) (h : IEEE.D v = .val (.fin x)) :
    IsMoney x := by
  cases v with
  | parseError =>
    simp only [IEEE.D, pyQuantize2, DResult.val.injEq, PyDecimal.fin.injEq] at h
    rw [IsMoney, ← h]
    exact quantize2_idem 0
  | parsed d =>
    cases d with
    | fin q =>
      simp only [IEEE.D, pyQuantize2, DResult.val.injEq, PyDecimal.fin.injEq] at h
      rw [IsMoney, ← h]
      exact quantize2_idem q
    | posInf => simp [IEEE.D, pyQuantize2] at h
    | negInf => simp [IEEE.D, pyQuantize2] at h
    | nan => simp [IEEE.D, pyQuantize2] at h

lemma addItem_added_eq (items : List Item) (nameRaw : String)
    (qtyIn priceIn : DInput) (l : List Item)
    (h : IEEE.addItem items nameRaw qtyIn priceIn = .added l) :
    ∃ q p, IEEE.D qtyIn = .val (.fin q) ∧ IEEE.D priceIn = .val (.fin p) ∧
      l = items ++ [⟨pyStrip nameRaw, q, p, quantize2 (q * p)⟩] := by
  simp only [IEEE.addItem] at h
  by_cases hname : pyStrip nameRaw = ""
  · rw [if_pos hname] at h
    cases h
  · rw [if_neg hname] at h
    cases hq : IEEE.D qtyIn with
    | invalidOperation => rw [hq] at h; simp at h
    | val qd =>
      rw [hq] at h
      cases hp : IEEE.D priceIn with
      | invalidOperation => rw [hp] at h; simp at h
      | val pd =>
        rw [hp] at h
        cases qd with
        | nan => simp [pyLeZero] at h
        | negInf => simp [pyLeZero] at h
        | posInf =>
          cases pd with
          | nan => simp [pyLeZero, pyLtZero] at h
          | negInf => simp [pyLeZero, pyLtZero] at h
          | posInf => simp [pyLeZero, pyLtZero] at h
          | fin p =>
            by_cases hp0 : p < 0 <;> simp [pyLeZero, pyLtZero, hp0] at h
        | fin q =>
          by_cases hq0 : q ≤ 0
          · simp [pyLeZero, hq0] at h
          · cases pd with
            | nan => simp [pyLeZero, pyLtZero, hq0] at h
            | negInf => simp [pyLeZero, pyLtZero, hq0] at h
            | posInf => simp [pyLeZero, pyLtZero, hq0] at h
            | fin p =>
              by_cases hp0 : p < 0
              · simp [pyLeZero, pyLtZero, hq0, hp0] at h
              · simp [pyLeZero, pyLtZero, hq0, hp0] at h
                exact ⟨q, p, rfl, rfl, h.symm⟩

end Billing
namespace Billing

/-- Claim C4: an add request with an empty or whitespace name, an
unparsable number, a coerced quantity at most 0, or a coerced negative
price reports a validation failure and leaves the item list exactly as
before; a valid request appends exactly one new item at the end, with
insertion order preserved. -/
theorem add_item_validation (items : List Item) (nameRaw : String)
    (qIn pIn : DInput) :
    (pyStrip nameRaw = "" →
      IEEE.addItem items nameRaw qIn pIn =
        .validationFailure "Item name cannot be empty." ∧
      IEEE.itemsAfterAdd items nameRaw qIn pIn = items) ∧
    (pyStrip nameRaw ≠ "" →
        (IEEE.D qIn = .invalidOperation ∨ IEEE.D pIn = .invalidOperation) →
      IEEE.addItem items nameRaw qIn pIn =
        .validationFailure "Quantity and price must be numeric." ∧
      IEEE.itemsAfterAdd items nameRaw qIn pIn = items) ∧
    (∀ q pd, pyStrip nameRaw ≠ "" → IEEE.D qIn = .val (.fin q) →
        IEEE.D pIn = .val pd → q ≤ 0 →
      IEEE.addItem items nameRaw qIn pIn =
        .validationFailure "Quantity must be greater than 0." ∧
      IEEE.itemsAfterAdd items nameRaw qIn pIn = items) ∧
    (∀ q p, pyStrip nameRaw ≠ "" → IEEE.D qIn = .val (.fin q) →
        IEEE.D pIn = .val (.fin p) → 0 < q → p < 0 →
      IEEE.addItem items nameRaw qIn pIn =
        .validationFailure "Price cannot be negative." ∧
      IEEE.itemsAfterAdd items nameRaw qIn pIn = items) ∧
    (∀ q p, pyStrip nameRaw ≠ "" → IEEE.D qIn = .val (.fin q) →
        IEEE.D pIn = .val (.fin p) → 0 < q → 0 ≤ p →
      IEEE.addItem items nameRaw qIn pIn =
        .added (items ++ [⟨pyStrip nameRaw, q, p, quantize2 (q * p)⟩]) ∧
      IEEE.itemsAfterAdd items nameRaw qIn pIn =
        items ++ [⟨pyStrip nameRaw, q, p, quantize2 (q * p)⟩]) := by
  refine ⟨?_, ?_, ?_, ?_, ?_⟩
  · intro hname
    have ha : IEEE.addItem items nameRaw qIn pIn =
        .validationFailure "Item name cannot be empty." := by
      simp only [IEEE.addItem]
      rw [if_pos hname]
    exact ⟨ha, by simp [IEEE.itemsAfterAdd, ha]⟩
  · intro hname hD
    have ha : IEEE.addItem items nameRaw qIn pIn =
        .validationFailure "Quantity and price must be numeric." := by
      simp only [IEEE.addItem]
      rw [if_neg hname]
      rcases hD with h | h
      · rw [h]
      · cases hq : IEEE.D qIn with
        | invalidOperation => rfl
        | val qd => rw [h]
    exact ⟨ha, by simp [IEEE.itemsAfterAdd, ha]⟩
  · intro q pd hname hq hp hq0
    have ha : IEEE.addItem items nameRaw qIn pIn =
        .validationFailure "Quantity must be greater than 0." := by
      simp only [IEEE.addItem]
      rw [if_neg hname, hq, hp]
      simp [pyLeZero, hq0]
    exact ⟨ha, by simp [IEEE.itemsAfterAdd, ha]⟩
  · intro q p hname hq hp hq0 hp0
    have ha : IEEE.addItem items nameRaw qIn pIn =
        .validationFailure "Price cannot be negative." := by
      simp only [IEEE.addItem]
      rw [if_neg hname, hq, hp]
      simp [pyLeZero, pyLtZero, not_le.mpr hq0, hp0]
    exact ⟨ha, by simp [IEEE.itemsAfterAdd, ha]⟩
  · intro q p hname hq hp hq0 hp0
    have ha : IEEE.addItem items nameRaw qIn pIn =
        .added (items ++ [⟨pyStrip nameRaw, q, p, quantize2 (q * p)⟩]) := by
      simp only [IEEE.addItem]
      rw [if_neg hname, hq, hp]
      simp [pyLeZero, pyLtZero, not_le.mpr hq0, not_lt.mpr hp0]
    exact ⟨ha, by simp [IEEE.itemsAfterAdd, ha]⟩

theorem add_item_validation_witness :
    IEEE.addItem [] "Cable" (.parsed (.fin 5)) (.parsed (.fin 20)) =
      .added [⟨"Cable", 5, 20, 100⟩] := by
  have hq : IEEE.D (.parsed (.fin 5)) = .val (.fin 5) := by
    simp only [IEEE.D, pyQuantize2]
    norm_num [quantize2, roundHalfUpZ]
  have hp : IEEE.D (.parsed (.fin 20)) = .val (.fin 20) := by
    simp only [IEEE.D, pyQuantize2]
    norm_num [quantize2, roundHalfUpZ]
  have h := (add_item_validation [] "Cable" (.parsed (.fin 5))
    (.parsed (.fin 20))).2.2.2.2 5 20 (by decide) hq hp (by norm_num) (by norm_num)
  rw [h.1]
  have h1 : pyStrip "Cable" = "Cable" := by decide
  have h2 : quantize2 (5 * 20 : ℚ) = 100 := by
    norm_num [quantize2, roundHalfUpZ]
  rw [h1, h2]
  rfl

/-- Claim C9: add item validates the coerced value, not the raw text: a
strictly positive quantity that rounds to 0.00 under D is rejected as
non-positive, and every quantity, price and line total stored by a
successful add satisfies the 2-fractional-digit Money invariant. -/
theorem add_validates_coerced (items : List Item) (nameRaw : String)
    (pIn : DInput) (q : ℚ) (pd : PyDecimal)
    (hname : pyStrip nameRaw ≠ "") (hq : 0 < q) (hround : quantize2 q = 0)
    (hp : IEEE.D pIn = .val pd) :
    IEEE.addItem items nameRaw (.parsed (.fin q)) pIn =
      .validationFailure "Quantity must be greater than 0." ∧
    (∀ qIn l, IEEE.addItem items nameRaw qIn pIn = .added l →
      (∀ it ∈ items, IsMoney it.qty ∧ IsMoney it.price ∧ IsMoney it.total) →
      ∀ it ∈ l, IsMoney it.qty ∧ IsMoney it.price ∧ IsMoney it.total) := by
  constructor
  · have hDq : IEEE.D (.parsed (.fin q)) = .val (.fin 0) := by
      simp only [IEEE.D, pyQuantize2, hround]
    simp only [IEEE.addItem]
    rw [if_neg hname, hDq, hp]
    simp [pyLeZero]
  · intro qIn l hadd hmoney it hit
    obtain ⟨q', p', hq', hp', hl⟩ := addItem_added_eq items nameRaw qIn pIn l hadd
    subst hl
    rcases List.mem_append.1 hit with hin | hin
    · exact hmoney it hin
    · have : it = ⟨pyStrip nameRaw, q', p', quantize2 (q' * p')⟩ :=
        List.mem_singleton.1 hin
      subst this
      exact ⟨D_val_fin_money _ _ hq', D_val_fin_money _ _ hp',
        quantize2_idem _⟩

theorem add_validates_coerced_witness :
    (0 : ℚ) < 1 / 250 ∧ quantize2 (1 / 250) = 0 ∧
    IEEE.addItem [] "Wire" (.parsed (.fin (1 / 250))) (.parsed (.fin 1)) =
      .validationFailure "Quantity must be greater than 0." := by
  have h1 : (0 : ℚ) < 1 / 250 := by norm_num
  have h2 : quantize2 (1 / 250) = 0 := by
    norm_num [quantize2, roundHalfUpZ]
  have h3 : IEEE.D (.parsed (.fin 1)) = .val (.fin 1) := by
    simp only [IEEE.D, pyQuantize2]
    norm_num [quantize2, roundHalfUpZ]
  exact ⟨h1, h2, (add_validates_coerced [] "Wire" (.parsed (.fin 1)) (1 / 250)
    (.fin 1) (by decide) h1 h2 h3).1⟩

lemma foldl_save (rs : List IEEE.LedgerRow) (rows : List (List String)) :
    rs.foldl (fun f r => some (IEEE.saveToMasterDb f r)) (some rows) =
      some (rows ++ rs.map IEEE.rowOf) := by
  induction rs generalizing rows with
  | nil => simp
  | cons r rs ih =>
    rw [List.foldl_cons]
    show rs.foldl _ (some (rows ++ [IEEE.rowOf r])) = _
    rw [ih]
    simp

lemma appendAll_cons (r : IEEE.LedgerRow) (rs : List IEEE.LedgerRow) :
    IEEE.appendAll (r :: rs) =
      some (IEEE.headerRow :: (r :: rs).map IEEE.rowOf) := by
  unfold IEEE.appendAll
  rw [List.foldl_cons]
  show rs.foldl _ (some (IEEE.saveToMasterDb none r)) = _
  rw [foldl_save]
  rfl

lemma readHistoryRow_rowOf (r : IEEE.LedgerRow) :
    IEEE.readHistoryRow IEEE.headerRow (IEEE.rowOf r) = IEEE.historyOf r := rfl

/-- Claim C7: appending N finalized invoices to an initially absent
master database (header written first) and reading the history back
yields exactly N records, field-for-field equal to what was appended, in
append order. -/
theorem ledger_roundtrip (rs : List IEEE.LedgerRow) :
    IEEE.refreshHistory (IEEE.appendAll rs) = rs.map IEEE.historyOf ∧
    (IEEE.refreshHistory (IEEE.appendAll rs)).length = rs.length := by
  have h : IEEE.refreshHistory (IEEE.appendAll rs) = rs.map IEEE.historyOf := by
    cases rs with
    | nil => rfl
    | cons r rs =>
      rw [appendAll_cons]
      show ((r :: rs).map IEEE.rowOf).map (IEEE.readHistoryRow IEEE.headerRow) = _
      rw [List.map_map]
      have hcomp : IEEE.readHistoryRow IEEE.headerRow ∘ IEEE.rowOf =
          IEEE.historyOf := funext readHistoryRow_rowOf
      rw [hcomp]
  exact ⟨h, by rw [h, List.length_map]⟩

end Billing
namespace Billing

/-- Claim C1: the calculator applies the discount to the subtotal and the
tax to the quantized post-discount base, each step rounded half-up to 2
digits: discount is quantize2 of subtotal times pct over 100, taxable is
quantize2 of subtotal minus discount, tax is quantize2 of taxable times
pct over 100, and the grand total is quantize2 of taxable plus tax; the
tax amount is a function of the taxable base, never of the raw subtotal. -/
theorem recalc_discount_before_tax (items : List Item) (dp tp : ℚ) :
    (IEEE.recalcTotals items dp tp).subtotal = IEEE.subtotal items ∧
    (IEEE.recalcTotals items dp tp).discountAmt =
      quantize2 (IEEE.subtotal items * dp / 100) ∧
    (IEEE.recalcTotals items dp tp).taxable =
      quantize2 (IEEE.subtotal items - (IEEE.recalcTotals items dp tp).discountAmt) ∧
    (IEEE.recalcTotals items dp tp).taxAmt =
      quantize2 ((IEEE.recalcTotals items dp tp).taxable * tp / 100) ∧
    (IEEE.recalcTotals items dp tp).grandTotal =
      quantize2 ((IEEE.recalcTotals items dp tp).taxable +
        (IEEE.recalcTotals items dp tp).taxAmt) :=
  ⟨rfl, rfl, rfl, rfl, rfl⟩

/-- Claim C8: the IEEE and ROBOCEK deployments share one
monetary-computation design: on identical inputs the parsing of a
percentage text and every derived total coincide. -/
theorem ieee_robocek_same_calculator (items : List Item) (v : DInput)
    (dp tp : ℚ) :
    IEEE.D v = ROBOCEK.D v ∧
    IEEE.effPct v = ROBOCEK.effPct v ∧
    IEEE.subtotal items = ROBOCEK.subtotal items ∧
    IEEE.recalcTotals items dp tp = ROBOCEK.recalcTotals items dp tp :=
  ⟨rfl, rfl, rfl, rfl⟩

/-- Claim C3 counterexample: a discount percentage of -10 is not treated
as zero: on a single item of total 100 it yields discount amount -10,
while percentage 0 yields 0. -/
theorem negative_pct_counterexample :
    IEEE.effPct (.parsed (.fin (-10))) = .fin (-10) ∧
    (IEEE.recalcTotals [⟨"Speaker", 1, 100, 100⟩] (-10) 18).discountAmt = -10 ∧
    (IEEE.recalcTotals [⟨"Speaker", 1, 100, 100⟩] 0 18).discountAmt = 0 ∧
    ((-10 : ℚ) ≠ 0) := by
  refine ⟨?_, ?_, ?_, by norm_num⟩
  · simp only [IEEE.effPct, IEEE.D, pyQuantize2]
    norm_num [quantize2, roundHalfUpZ]
  · unfold IEEE.recalcTotals IEEE.subtotal quantize2 roundHalfUpZ
    norm_num
  · unfold IEEE.recalcTotals IEEE.subtotal quantize2 roundHalfUpZ
    norm_num

/-- Claim C3 amended: an unparsable percentage text is treated as zero
with no error reported; a percentage that parses, negative included, is
only rounded half-up to 2 digits, never replaced by zero, and the
calculator applies the resulting value to the subtotal as given. -/
theorem pct_unparsable_zero_negative_passthrough (items : List Item)
    (q tp : ℚ) :
    IEEE.effPct .parseError = .fin 0 ∧
    IEEE.effPct (.parsed (.fin q)) = .fin (quantize2 q) ∧
    (IEEE.recalcTotals items (quantize2 q) tp).discountAmt =
      quantize2 (IEEE.subtotal items * quantize2 q / 100) := by
  refine ⟨?_, rfl, rfl⟩
  simp only [IEEE.effPct, IEEE.D, pyQuantize2, quantize2_zero]

/-- Claim C6: the quantize call in D sits outside the try block, so an
input whose text parses to an infinity raises InvalidOperation to the
caller of D, and a NaN input is returned as NaN rather than as a
2-digit value or zero. -/
theorem D_infinity_raises :
    IEEE.D (.parsed .posInf) = .invalidOperation ∧
    IEEE.D (.parsed .negInf) = .invalidOperation ∧
    IEEE.D (.parsed .nan) = .val .nan :=
  ⟨rfl, rfl, rfl⟩

/-- Claim C2 counterexample: for the absent, unreadable and empty store
the generator returns "1", not the 14-digit timestamp identifier the
claim requires. -/
theorem gen_fallback_counterexample :
    IEEE.genInvoiceNo .absent ⟨2025, 1, 2, 3, 4, 5⟩ = "1" ∧
    IEEE.genInvoiceNo .unreadable ⟨2025, 1, 2, 3, 4, 5⟩ = "1" ∧
    IEEE.genInvoiceNo (.readable none) ⟨2025, 1, 2, 3, 4, 5⟩ = "1" ∧
    strftimeYmdHMS ⟨2025, 1, 2, 3, 4, 5⟩ = "20250102030405" ∧
    ("1" : String) ≠ "20250102030405" :=
  ⟨rfl, rfl, rfl, by decide, by decide⟩

/-- Claim C2 amended: when the store is absent, unreadable, has no data
row, or its last identifier is empty, the generator returns "1"; the
timestamp fallback applies only to a non-empty non-numeric last
identifier. -/
theorem gen_fallback_returns_one (store : IEEE.StoreState) (now : Timestamp)
    (h : store = .absent ∨ store = .unreadable ∨ store = .readable none ∨
      store = .readable (some "")) :
    IEEE.genInvoiceNo store now = "1" := by
  rcases h with h | h | h | h <;> subst h
  · rfl
  · rfl
  · rfl
  · simp [IEEE.genInvoiceNo]

theorem gen_fallback_returns_one_witness :
    IEEE.genInvoiceNo .absent ⟨2025, 6, 7, 8, 9, 10⟩ = "1" :=
  gen_fallback_returns_one _ _ (Or.inl rfl)

/-- Claim C5: when the last recorded identifier is non-empty and composed
entirely of decimal digits, the generator returns the decimal
representation of that integer plus one. -/
theorem gen_numeric_increment (s : String) (now : Timestamp) (h1 : s ≠ "")
    (h2 : s.data.all Char.isDigit = true) :
    IEEE.genInvoiceNo (.readable (some s)) now = natToString (strToNat s + 1) :=
  gen_digit_case s now h1 h2

theorem gen_numeric_increment_witness :
    IEEE.genInvoiceNo (.readable (some "41")) ⟨2025, 1, 1, 0, 0, 0⟩ = "42" := by
  rw [gen_numeric_increment "41" ⟨2025, 1, 1, 0, 0, 0⟩ (by decide) (by decide)]
  decide

/-- Claim C10: every identifier the generator returns is a non-empty
all-digit string, so feeding a generated identifier back as the last
recorded one always takes the numeric-increment path. -/
theorem gen_identifiers_always_numeric (store : IEEE.StoreState)
    (now now' : Timestamp) :
    IEEE.genInvoiceNo store now ≠ "" ∧
    (IEEE.genInvoiceNo store now).data.all Char.isDigit = true ∧
    IEEE.genInvoiceNo (.readable (some (IEEE.genInvoiceNo store now))) now' =
      natToString (strToNat (IEEE.genInvoiceNo store now) + 1) :=
  ⟨genInvoiceNo_ne_empty store now, genInvoiceNo_all_digits store now,
    gen_digit_case _ now' (genInvoiceNo_ne_empty store now)
      (genInvoiceNo_all_digits store now)⟩

end Billing
